import Mathlib

/-!
Verification of the CAPA response-grading engine
(`common/lib/capa/capa/responsetypes.py`) against its specification.

Each Python function relevant to the claims is shallowly embedded as an
executable Lean definition; stateful code is modelled by explicit state
passing, the shared random number generator by an abstract deterministic
state machine, and fallible code by `Except`.
-/

namespace Capa

/-- Error taxonomy of the grading engine (`responsetypes.py`):
`LoncapaProblemError` is a specification error raised for malformed
authoring; `StudentInputError` is recoverable student-facing feedback;
`ResponseError` is an execution failure (sandboxed code, regex compile). -/
inductive CapaError where
  | loncapaProblemError (msg : String)
  | studentInputError (msg : String)
  | responseError (msg : String)
deriving DecidableEq, Repr

/-- A student's submitted value for one answer field: the Python code
receives either a bare string or a list of strings. -/
inductive SubmittedValue where
  | single (s : String)
  | multi (l : List String)
deriving DecidableEq, Repr

/-! ## ChoiceResponse -/

/-- A `<choice>` element as seen by `ChoiceResponse`: we keep the
`correct` attribute value (the raw string from the XML). -/
structure ChoiceElem where
  correct : String
deriving DecidableEq, Repr

/-- `ChoiceResponse.assign_choice_names`: each choice gets the synthetic
name `choice_<index>` in document order. -/
def assign_choice_names (choices : List ChoiceElem) : List (String × ChoiceElem) :=
  choices.enum.map (fun p => ("choice_" ++ toString p.1, p.2))

/-- `ChoiceResponse.setup_response`: the correct-choice set is the set of
names of choices whose `correct` attribute is `"True"` or `"true"`
(the xpath `choice[@correct="True" or @correct="true"]`). -/
def setup_correct_choices (choices : List ChoiceElem) : Finset String :=
  (((assign_choice_names choices).filter
      (fun p => p.2.correct = "True" ∨ p.2.correct = "true")).map Prod.fst).toFinset

/-- State of a `ChoiceResponse` instance after `setup_response`. -/
structure ChoiceResponse where
  correct_choices : Finset String
deriving DecidableEq

namespace ChoiceResponse

/-- The first lines of `ChoiceResponse.get_score`:
`student_answers.get(self.answer_id, [])` followed by
`if not isinstance(student_answer, list): student_answer = [student_answer]`.
A missing key yields the empty list; a bare value becomes a one-element list. -/
def coerce_submission (v : Option SubmittedValue) : List String :=
  match v with
  | none => []
  | some (.single s) => [s]
  | some (.multi l) => l

/-- `ChoiceResponse.get_score`: form the set of submitted names, then
`correct = (correct_choices - student_answer == ∅) & (student_answer - correct_choices == ∅)`. -/
def get_score (r : ChoiceResponse) (sub : Option SubmittedValue) : String :=
  let student_answer : Finset String := (coerce_submission sub).toFinset
  let required_selected : Bool := (r.correct_choices \ student_answer) = ∅
  let no_extra_selected : Bool := (student_answer \ r.correct_choices) = ∅
  if required_selected && no_extra_selected then "correct" else "incorrect"

end ChoiceResponse

theorem choice_get_score_eq_iff (r : ChoiceResponse) (sub : Option SubmittedValue) :
    r.get_score sub =
      (if (ChoiceResponse.coerce_submission sub).toFinset = r.correct_choices
       then "correct" else "incorrect") := by
  unfold ChoiceResponse.get_score
  by_cases h : (ChoiceResponse.coerce_submission sub).toFinset = r.correct_choices
  · simp [h]
  · have h' : ¬(r.correct_choices \ (ChoiceResponse.coerce_submission sub).toFinset = ∅
        ∧ (ChoiceResponse.coerce_submission sub).toFinset \ r.correct_choices = ∅) := by
      rw [Finset.sdiff_eq_empty_iff_subset, Finset.sdiff_eq_empty_iff_subset]
      rintro ⟨h1, h2⟩
      exact h (Finset.Subset.antisymm h2 h1)
    simp only [h, if_false, Bool.and_eq_true, decide_eq_true_eq]
    rw [if_neg (by simpa using h')]

/-- C1: for every `ChoiceResponse` and every submission, `get_score` grades the
answer field `correct` iff the set of submitted choice names exactly equals the
author-declared correct set, and `incorrect` otherwise; in particular adding
any extra choice to an exactly-correct selection, or removing any required
choice from it, flips the verdict to `incorrect`. -/
theorem choice_get_score_exact_set (r : ChoiceResponse) (sub : Option SubmittedValue) :
    (r.get_score sub = "correct" ↔
      (ChoiceResponse.coerce_submission sub).toFinset = r.correct_choices)
    ∧ (r.get_score sub = "correct" ∨ r.get_score sub = "incorrect")
    ∧ (∀ (l : List String) (x : String),
        l.toFinset = r.correct_choices → x ∉ r.correct_choices →
        r.get_score (some (.multi (x :: l))) = "incorrect")
    ∧ (∀ (l : List String) (x : String),
        x ∈ r.correct_choices → l.toFinset = r.correct_choices.erase x →
        r.get_score (some (.multi l)) = "incorrect") := by
  refine ⟨?_, ?_, ?_, ?_⟩
  · rw [choice_get_score_eq_iff]
    constructor
    · intro h
      by_contra hne
      rw [if_neg hne] at h
      exact absurd h (by decide)
    · intro h; rw [if_pos h]
  · rw [choice_get_score_eq_iff]
    by_cases h : (ChoiceResponse.coerce_submission sub).toFinset = r.correct_choices
    · exact Or.inl (by rw [if_pos h])
    · exact Or.inr (by rw [if_neg h])
  · intro l x hl hx
    rw [choice_get_score_eq_iff, if_neg]
    intro hEq
    simp only [ChoiceResponse.coerce_submission, List.toFinset_cons, hl] at hEq
    exact hx (hEq ▸ Finset.mem_insert_self x _)
  · intro l x hx hl
    rw [choice_get_score_eq_iff, if_neg]
    intro hEq
    simp only [ChoiceResponse.coerce_submission, hl] at hEq
    exact (Finset.erase_eq_self.mp hEq) hx

/-- Witness for C1 at concrete inputs: correct choices `{choice_1, choice_3}`
built from the authored `correct` attributes, with an exact submission, a
submission with an extra choice, and a submission missing a required choice. -/
theorem choice_get_score_exact_set_witness :
    (ChoiceResponse.get_score ⟨setup_correct_choices [⟨"false"⟩, ⟨"true"⟩, ⟨"false"⟩, ⟨"True"⟩]⟩
      (some (.multi ["choice_1", "choice_3"])) = "correct")
    ∧ (ChoiceResponse.get_score ⟨setup_correct_choices [⟨"false"⟩, ⟨"true"⟩, ⟨"false"⟩, ⟨"True"⟩]⟩
      (some (.multi ["choice_0", "choice_1", "choice_3"])) = "incorrect")
    ∧ (ChoiceResponse.get_score ⟨setup_correct_choices [⟨"false"⟩, ⟨"true"⟩, ⟨"false"⟩, ⟨"True"⟩]⟩
      (some (.multi ["choice_1"])) = "incorrect") := by
  refine ⟨?_, ?_, ?_⟩
  · exact (choice_get_score_exact_set _ _).1.mpr (by decide)
  · exact (choice_get_score_exact_set _ none).2.2.1 ["choice_1", "choice_3"] "choice_0"
      (by decide) (by decide)
  · exact (choice_get_score_exact_set _ none).2.2.2 ["choice_1"] "choice_3"
      (by decide) (by decide)

/-- C10: `ChoiceResponse.get_score` is total over submissions at its public
interface: a missing answer-field key is treated as the empty selection, a bare
non-list value as the one-element selection, and with zero author-declared
correct choices an empty or missing selection grades `correct`. -/
theorem choice_get_score_total (r : ChoiceResponse) (v : String) :
    (r.get_score none = r.get_score (some (.multi [])))
    ∧ (r.get_score (some (.single v)) = r.get_score (some (.multi [v])))
    ∧ (r.correct_choices = ∅ → r.get_score none = "correct")
    ∧ (r.correct_choices = ∅ → r.get_score (some (.multi [])) = "correct") := by
  refine ⟨rfl, rfl, ?_, ?_⟩ <;>
    · intro h
      exact (choice_get_score_exact_set r _).1.mpr (by simp [ChoiceResponse.coerce_submission, h])

/-- Witness for C10: with no correct choices, a missing submission grades
`correct`, and a bare string submission is the singleton selection. -/
theorem choice_get_score_total_witness :
    (ChoiceResponse.get_score ⟨∅⟩ none = "correct")
    ∧ (ChoiceResponse.get_score ⟨{"choice_0"}⟩ (some (.single "choice_0"))
        = ChoiceResponse.get_score ⟨{"choice_0"}⟩ (some (.multi ["choice_0"]))) :=
  ⟨(choice_get_score_total ⟨∅⟩ "x").2.2.1 rfl,
   (choice_get_score_total ⟨{"choice_0"}⟩ "choice_0").2.1⟩

/-! ## NumericalResponse: range tolerance -/

/-- Modelled from the spec: `compare_with_tolerance` lives in `capa/util.py`,
which is not part of the sources here. Per the spec (§4.3), with
`relative_tolerance=True` the author tolerance is replaced by the given
tolerance scaled by the magnitude of the compared values; the comparison
succeeds iff the absolute difference is within that tolerance. -/
def qabs (x : ℚ) : Rat := if x < 0 then -x else x

def qmax (a b : ℚ) : Rat := if a ≤ b then b else a

theorem qabs_eq_abs (x : ℚ) : qabs x = |x| := by
  unfold qabs; rcases lt_or_le x 0 with h | h
  · rw [if_pos h, abs_of_neg h]
  · rw [if_neg (not_lt.mpr h), abs_of_nonneg h]

theorem qmax_eq_max (a b : ℚ) : qmax a b = max a b := by
  unfold qmax; rcases le_total a b with h | h
  · rw [if_pos h, max_eq_right h]
  · rcases eq_or_lt_of_le h with h' | h'
    · simp [h']
    · rw [if_neg (not_le.mpr h'), max_eq_left h]

def compare_with_tolerance (student instructor tolerance : ℚ)
    (relative_tolerance : Bool) : Bool :=
  let tol := if relative_tolerance
    then tolerance * qmax (qabs student) (qabs instructor) else tolerance
  qabs (student - instructor) ≤ tol

/-- `sys.float_info.epsilon`: the machine epsilon of IEEE-754 binary64. -/
def float_epsilon : ℚ := 1 / 2 ^ 52

/-- The range-detection test of `NumericalResponse.setup_response`: an answer
string is a range iff it starts with `[` or `(` and ends with `]` or `)`;
the inclusion pair records inclusive-left (`[`) and inclusive-right (`]`). -/
def parse_inclusion (answer : String) : Option (Bool × Bool) :=
  match answer.data.head?, answer.data.getLast? with
  | some f, some l =>
    if (f = '[' ∨ f = '(') ∧ (l = ']' ∨ l = ')') then some (f = '[', l = ']') else none
  | _, _ => none

/-- The range-tolerance branch of `NumericalResponse.get_score` for a real
submission and real boundaries: the `for`/`zip` loop checks the lower
boundary first, then the upper, each with machine-epsilon relative
tolerance; on a match the verdict is that side's inclusion flag; if neither
matched, the verdict is strict betweenness. -/
def numerical_range_score (loIncl hiIncl : Bool) (lo hi student : ℚ) : String :=
  if compare_with_tolerance student lo float_epsilon true then
    if loIncl then "correct" else "incorrect"
  else if compare_with_tolerance student hi float_epsilon true then
    if hiIncl then "correct" else "incorrect"
  else if lo < student ∧ student < hi then "correct" else "incorrect"

theorem compare_eval_2_2 : compare_with_tolerance 2 2 float_epsilon true = true := by
  simp [compare_with_tolerance, qabs, qmax, float_epsilon]
  norm_num

theorem compare_eval_5_2 : compare_with_tolerance 5 2 float_epsilon true = false := by
  simp [compare_with_tolerance, qabs, qmax, float_epsilon]
  norm_num

theorem compare_eval_5_5 : compare_with_tolerance 5 5 float_epsilon true = true := by
  simp [compare_with_tolerance, qabs, qmax, float_epsilon]
  norm_num

theorem compare_eval_3_2 : compare_with_tolerance 3 2 float_epsilon true = false := by
  simp [compare_with_tolerance, qabs, qmax, float_epsilon]
  norm_num

theorem compare_eval_3_5 : compare_with_tolerance 3 5 float_epsilon true = false := by
  simp [compare_with_tolerance, qabs, qmax, float_epsilon]
  norm_num

theorem compare_eval_near5_2 :
    compare_with_tolerance ((4999999999 : ℚ) / 1000000000) 2 float_epsilon true = false := by
  simp [compare_with_tolerance, qabs, qmax, float_epsilon]
  norm_num

theorem compare_eval_near5_5 :
    compare_with_tolerance ((4999999999 : ℚ) / 1000000000) 5 float_epsilon true = false := by
  simp [compare_with_tolerance, qabs, qmax, float_epsilon]
  norm_num

/-- C2: in range-tolerance mode a submission equal to a boundary within
machine-epsilon relative tolerance is graded by that boundary's bracket
(inclusive = correct, exclusive = incorrect), and otherwise the verdict is
strict betweenness; concretely for the answer `[2, 5)`, input `2` is correct,
input `5` is incorrect and input `4.999999999` is correct. -/
theorem numerical_range_score_spec :
    (∀ (loIncl hiIncl : Bool) (lo hi s : ℚ),
      (compare_with_tolerance s lo float_epsilon true = true →
        numerical_range_score loIncl hiIncl lo hi s
          = (if loIncl then "correct" else "incorrect"))
      ∧ (compare_with_tolerance s lo float_epsilon true = false →
          compare_with_tolerance s hi float_epsilon true = true →
          numerical_range_score loIncl hiIncl lo hi s
            = (if hiIncl then "correct" else "incorrect"))
      ∧ (compare_with_tolerance s lo float_epsilon true = false →
          compare_with_tolerance s hi float_epsilon true = false →
          (numerical_range_score loIncl hiIncl lo hi s = "correct" ↔ lo < s ∧ s < hi)))
    ∧ parse_inclusion "[2, 5)" = some (true, false)
    ∧ numerical_range_score true false 2 5 2 = "correct"
    ∧ numerical_range_score true false 2 5 5 = "incorrect"
    ∧ numerical_range_score true false 2 5 ((4999999999 : ℚ) / 1000000000) = "correct" := by
  constructor
  · intro loIncl hiIncl lo hi s
    refine ⟨fun h1 => ?_, fun h1 h2 => ?_, fun h1 h2 => ?_⟩
    · simp [numerical_range_score, h1]
    · simp [numerical_range_score, h1, h2]
    · simp only [numerical_range_score, h1, h2, Bool.false_eq_true, if_false]
      by_cases hb : lo < s ∧ s < hi
      · simp [hb]
      · refine ⟨fun h => ?_, fun h => ?_⟩
        · rw [if_neg hb] at h
          exact absurd h (by decide)
        · exact absurd h hb
  refine ⟨by decide, ?_, ?_, ?_⟩
  · simp [numerical_range_score, compare_eval_2_2]
  · simp [numerical_range_score, compare_eval_5_2, compare_eval_5_5]
  · rw [numerical_range_score, if_neg (by rw [compare_eval_near5_2]; exact Bool.false_ne_true),
      if_neg (by rw [compare_eval_near5_5]; exact Bool.false_ne_true), if_pos (by norm_num)]

/-- Witness for C2: applies the universally quantified part at the concrete
range `[2, 5)` with submission `2` (boundary match, inclusive side) and with
submission `3` (no boundary match, strict betweenness). -/
theorem numerical_range_score_spec_witness :
    (numerical_range_score true false 2 5 2 = "correct")
    ∧ (numerical_range_score true false 2 5 3 = "correct") := by
  constructor
  · have h := (numerical_range_score_spec.1 true false 2 5 2).1 compare_eval_2_2
    simpa using h
  · have h := (numerical_range_score_spec.1 true false 2 5 3).2.2 compare_eval_3_2 compare_eval_3_5
    exact h.mpr (by norm_num)

/-! ## MultipleChoiceResponse: shuffle and answer-pool -/

/-- A `<choice>` element of a `<choicegroup>` with the attributes the shuffle
and answer-pool transforms read: `correct`, `fixed` and `explanation-id`. -/
structure McChoice where
  name : String
  correct : String
  fixed : String
  explanation_id : Option String
deriving DecidableEq, Repr, Inhabited

/-- `choice.get('fixed') == 'true'` as used by `shuffle_choices`. -/
def isFixedChoice (c : McChoice) : Bool := c.fixed = "true"

/-- Python's `str.upper()` on the ASCII attribute values involved. -/
def strUpper (s : String) : String := ⟨s.data.map Char.toUpper⟩

/-- `choice.get('correct').upper() == 'TRUE'` as used by
`sample_from_answer_pool`. -/
def isCorrectChoice (c : McChoice) : Bool := strUpper c.correct = "TRUE"

/-- The shared random number generator: `random.Random` is standard-library
code outside this repository, so it is modelled as an abstract deterministic
state machine; `randint lo hi` draws an integer and `shuffle` permutes a
list in place, each advancing the state. -/
structure Rng (σ : Type) where
  randint : Nat → Nat → σ → Nat × σ
  shuffle : List McChoice → σ → List McChoice × σ

/-- The one-pass state machine of `MultipleChoiceResponse.shuffle_choices`:
while `at_head`, `fixed='true'` choices join the head; after the first
non-fixed choice, fixed choices join the tail and everything else the
middle. -/
def shuffle_partition : List McChoice → Bool → List McChoice × List McChoice × List McChoice
  | [], _ => ([], [], [])
  | c :: rest, at_head =>
    if at_head && isFixedChoice c then
      let (h, m, t) := shuffle_partition rest true
      (c :: h, m, t)
    else
      let (h, m, t) := shuffle_partition rest false
      if isFixedChoice c then (h, m, c :: t) else (h, c :: m, t)

/-- `MultipleChoiceResponse.shuffle_choices`: only the middle group is
shuffled with the supplied generator; the result is
`head ++ shuffled(middle) ++ tail`. -/
def shuffle_choices {σ} (rng : Rng σ) (choices : List McChoice) (s : σ) :
    List McChoice × σ :=
  let p := shuffle_partition choices true
  let sh := rng.shuffle p.2.1 s
  (p.1 ++ sh.1 ++ p.2.2, sh.2)

theorem shuffle_partition_not_at_head (l : List McChoice) :
    shuffle_partition l false
      = ([], l.filter (fun c => !isFixedChoice c), l.filter isFixedChoice) := by
  induction l with
  | nil => rfl
  | cons c rest ih =>
    simp only [shuffle_partition, Bool.false_and, if_false, ih]
    by_cases hc : isFixedChoice c
    · simp [hc, List.filter_cons]
    · simp only [Bool.not_eq_true] at hc
      simp [hc, List.filter_cons]

theorem shuffle_partition_at_head (l : List McChoice) :
    shuffle_partition l true
      = (l.takeWhile isFixedChoice,
         (l.dropWhile isFixedChoice).filter (fun c => !isFixedChoice c),
         (l.dropWhile isFixedChoice).filter isFixedChoice) := by
  induction l with
  | nil => rfl
  | cons c rest ih =>
    by_cases hc : isFixedChoice c
    · simp only [shuffle_partition, Bool.true_and, hc, if_true, ih]
      simp [List.takeWhile_cons, List.dropWhile_cons, hc]
    · simp only [Bool.not_eq_true] at hc
      simp only [shuffle_partition, Bool.true_and, hc, Bool.false_eq_true, if_false,
        shuffle_partition_not_at_head]
      simp [List.takeWhile_cons, List.dropWhile_cons, hc, List.filter_cons]

/-- C4: `shuffle_choices` returns `leading ++ shuffled(middle) ++ trailing`
where the leading group is the maximal prefix of `fixed='true'` choices kept
in place, fixed choices appearing after the first non-fixed one land in the
trailing group, only the middle group passes through the supplied random
stream, and (whenever the stream permutes) the output is a permutation of
the input. -/
theorem shuffle_choices_spec {σ} (rng : Rng σ)
    (hshuf : ∀ l s, ((rng.shuffle l s).1).Perm l)
    (choices : List McChoice) (s : σ) :
    ((shuffle_choices rng choices s).1
      = choices.takeWhile isFixedChoice
        ++ (rng.shuffle ((choices.dropWhile isFixedChoice).filter
              (fun c => !isFixedChoice c)) s).1
        ++ (choices.dropWhile isFixedChoice).filter isFixedChoice)
    ∧ ((shuffle_choices rng choices s).1).Perm choices := by
  have hpart := shuffle_partition_at_head choices
  have heq : (shuffle_choices rng choices s).1
      = choices.takeWhile isFixedChoice
        ++ (rng.shuffle ((choices.dropWhile isFixedChoice).filter
              (fun c => !isFixedChoice c)) s).1
        ++ (choices.dropWhile isFixedChoice).filter isFixedChoice := by
    simp [shuffle_choices, hpart]
  refine ⟨heq, ?_⟩
  rw [heq, List.append_assoc]
  have h1 : ((rng.shuffle ((choices.dropWhile isFixedChoice).filter
      (fun c => !isFixedChoice c)) s).1).Perm
      ((choices.dropWhile isFixedChoice).filter (fun c => !isFixedChoice c)) := hshuf _ _
  have h2 : (((choices.dropWhile isFixedChoice).filter (fun c => !isFixedChoice c))
      ++ ((choices.dropWhile isFixedChoice).filter isFixedChoice)).Perm
      (choices.dropWhile isFixedChoice) :=
    List.Perm.trans List.perm_append_comm (List.filter_append_perm _ _)
  have h3 := (h1.append
    (List.Perm.refl ((choices.dropWhile isFixedChoice).filter isFixedChoice))).trans h2
  have h4 := (List.Perm.refl (choices.takeWhile isFixedChoice)).append h3
  simpa [List.takeWhile_append_dropWhile] using h4

/-- A trivial deterministic generator used to instantiate witnesses:
`randint` returns the lower bound and `shuffle` is the identity
permutation. -/
def idRng : Rng Unit where
  randint := fun lo _ s => (lo, s)
  shuffle := fun l s => (l, s)

theorem idRng_shuffle_perm : ∀ (l : List McChoice) (s : Unit),
    ((idRng.shuffle l s).1).Perm l := fun l _ => List.Perm.refl l

theorem idRng_randint_bounds : ∀ (lo hi : Nat) (s : Unit), lo ≤ hi →
    lo ≤ (idRng.randint lo hi s).1 ∧ (idRng.randint lo hi s).1 ≤ hi :=
  fun _ _ _ h => ⟨Nat.le_refl _, h⟩

/-- Witness for C4 at a concrete list: a fixed head choice stays first, a
fixed "island" after the first non-fixed choice moves to the tail, and the
result is a permutation of the input. -/
theorem shuffle_choices_spec_witness :
    ((shuffle_choices idRng
      [⟨"choice_0", "false", "true", none⟩, ⟨"choice_1", "true", "", none⟩,
       ⟨"choice_2", "false", "true", none⟩, ⟨"choice_3", "false", "", none⟩] ()).1
      = [⟨"choice_0", "false", "true", none⟩, ⟨"choice_1", "true", "", none⟩,
         ⟨"choice_3", "false", "", none⟩, ⟨"choice_2", "false", "true", none⟩])
    ∧ ((shuffle_choices idRng
      [⟨"choice_0", "false", "true", none⟩, ⟨"choice_1", "true", "", none⟩,
       ⟨"choice_2", "false", "true", none⟩, ⟨"choice_3", "false", "", none⟩] ()).1).Perm
      [⟨"choice_0", "false", "true", none⟩, ⟨"choice_1", "true", "", none⟩,
       ⟨"choice_2", "false", "true", none⟩, ⟨"choice_3", "false", "", none⟩] := by
  have h := shuffle_choices_spec idRng idRng_shuffle_perm
    [⟨"choice_0", "false", "true", none⟩, ⟨"choice_1", "true", "", none⟩,
     ⟨"choice_2", "false", "true", none⟩, ⟨"choice_3", "false", "", none⟩] ()
  exact ⟨h.1.trans (by decide), h.2⟩

/-- `MultipleChoiceResponse.sample_from_answer_pool`: partition choices on
`correct.upper() == 'TRUE'`, raise `LoncapaProblemError` if either side is
empty, pick one correct choice with `rng.randint`, shuffle the incorrect
choices and keep the first `min(num_pool - 1, |incorrect|)`, then shuffle
the combined subset. -/
def sample_from_answer_pool {σ} (rng : Rng σ) (choices : List McChoice) (s : σ)
    (num_pool : Nat) : Except CapaError (Option String × List McChoice × σ) :=
  let correct_choices := choices.filter isCorrectChoice
  let incorrect_choices := choices.filter (fun c => !isCorrectChoice c)
  if correct_choices.length < 1 ∨ incorrect_choices.length < 1 then
    .error (.loncapaProblemError
      "Choicegroup must include at least 1 correct and 1 incorrect choice")
  else
    let num_incorrect := min (num_pool - 1) incorrect_choices.length
    let draw := rng.randint 0 (correct_choices.length - 1) s
    let correct_choice := correct_choices.getD draw.1 default
    let solution_id := correct_choice.explanation_id
    let sh1 := rng.shuffle incorrect_choices draw.2
    let subset0 := correct_choice :: sh1.1.take num_incorrect
    let sh2 := rng.shuffle subset0 sh1.2
    .ok (solution_id, sh2.1, sh2.2)

/-- C3: with `c ≥ 1` correct and `i ≥ 1` incorrect choices and a generator
whose `shuffle` permutes its input and whose `randint` respects its bounds,
`sample_from_answer_pool` succeeds with a subset holding exactly `1` correct
choice and `min(k-1, i)` incorrect choices drawn without replacement from the
originals (the subset is a sub-multiset of the original choices), and two
invocations from equal generator states return the identical result. -/
theorem sample_from_answer_pool_spec {σ} (rng : Rng σ)
    (hshuf : ∀ l s, ((rng.shuffle l s).1).Perm l)
    (hrand : ∀ lo hi s, lo ≤ hi →
      lo ≤ (rng.randint lo hi s).1 ∧ (rng.randint lo hi s).1 ≤ hi)
    (choices : List McChoice) (s : σ) (num_pool : Nat)
    (hc : 1 ≤ (choices.filter isCorrectChoice).length)
    (hi : 1 ≤ (choices.filter (fun c => !isCorrectChoice c)).length) :
    (∀ s₂, s₂ = s → sample_from_answer_pool rng choices s₂ num_pool
        = sample_from_answer_pool rng choices s num_pool)
    ∧ ∃ sol subset s',
        sample_from_answer_pool rng choices s num_pool = .ok (sol, subset, s')
        ∧ subset.countP isCorrectChoice = 1
        ∧ subset.countP (fun c => !isCorrectChoice c)
            = min (num_pool - 1) ((choices.filter (fun c => !isCorrectChoice c)).length)
        ∧ (subset : Multiset McChoice) ≤ (choices : Multiset McChoice) := by
  refine ⟨fun s₂ h => by rw [h], ?_⟩
  have hcond : ¬((choices.filter isCorrectChoice).length < 1
      ∨ (choices.filter (fun c => !isCorrectChoice c)).length < 1) := by
    push_neg
    exact ⟨hc, hi⟩
  rw [sample_from_answer_pool, if_neg hcond]
  set C := choices.filter isCorrectChoice with hC
  set I := choices.filter (fun c => !isCorrectChoice c) with hI
  set n := min (num_pool - 1) I.length with hn
  set index := (rng.randint 0 (C.length - 1) s).1 with hidx
  have hindex : index < C.length := by
    have h1 := (hrand 0 (C.length - 1) s (Nat.zero_le _)).2
    exact Nat.lt_of_le_of_lt h1 (Nat.sub_lt hc Nat.one_pos)
  set cc := C.getD index default with hcc
  have hccC : cc ∈ C := by
    rw [hcc, List.getD_eq_getElem C default hindex]
    exact List.getElem_mem hindex
  have hccCorrect : isCorrectChoice cc = true := (List.mem_filter.mp hccC).2
  set s1 := (rng.randint 0 (C.length - 1) s).2
  set shInc := (rng.shuffle I s1).1 with hshInc
  have hshIncPerm : shInc.Perm I := hshuf I s1
  set subset0 := cc :: shInc.take n with hsubset0
  set subset := (rng.shuffle subset0 (rng.shuffle I s1).2).1 with hsubset
  have hsubsetPerm : subset.Perm subset0 := hshuf _ _
  have htakeInc : ∀ a ∈ shInc.take n, isCorrectChoice a = false := by
    intro a ha
    have haI : a ∈ I := hshIncPerm.mem_iff.mp ((List.take_sublist n shInc).mem ha)
    have := (List.mem_filter.mp haI).2
    simpa using this
  refine ⟨cc.explanation_id, subset, _, rfl, ?_, ?_, ?_⟩
  · rw [hsubsetPerm.countP_eq, hsubset0, List.countP_cons, if_pos hccCorrect]
    have hz : (shInc.take n).countP isCorrectChoice = 0 := by
      rw [List.countP_eq_zero]
      intro a ha
      simp [htakeInc a ha]
    omega
  · rw [hsubsetPerm.countP_eq, hsubset0, List.countP_cons,
      if_neg (by simp [hccCorrect])]
    have hfull : (shInc.take n).countP (fun c => !isCorrectChoice c)
        = (shInc.take n).length := by
      rw [List.countP_eq_length]
      intro a ha
      simp [htakeInc a ha]
    rw [hfull, List.length_take, hshIncPerm.length_eq]
    have : n ⊓ I.length = n := by
      rw [hn]
      omega
    rw [this, hn]
    omega
  · have h1 : ({cc} : Multiset McChoice) ≤ (C : Multiset McChoice) :=
      Multiset.singleton_le.mpr hccC
    have h2 : ((shInc.take n : List McChoice) : Multiset McChoice)
        ≤ (I : Multiset McChoice) := by
      rw [show ((I : List McChoice) : Multiset McChoice) = (shInc : Multiset McChoice) from
        (Multiset.coe_eq_coe.mpr hshIncPerm).symm]
      exact Multiset.coe_le.mpr (List.take_sublist n shInc).subperm
    have h3 : ((subset : List McChoice) : Multiset McChoice)
        = ((subset0 : List McChoice) : Multiset McChoice) :=
      Multiset.coe_eq_coe.mpr hsubsetPerm
    have h4 : ((choices : List McChoice) : Multiset McChoice)
        = (C : Multiset McChoice) + (I : Multiset McChoice) := by
      rw [Multiset.coe_add]
      exact (Multiset.coe_eq_coe.mpr (List.filter_append_perm isCorrectChoice choices)).symm
    rw [h3, hsubset0, h4]
    have h5 : ((cc :: shInc.take n : List McChoice) : Multiset McChoice)
        = ({cc} : Multiset McChoice) + ((shInc.take n : List McChoice) : Multiset McChoice) := by
      rw [Multiset.singleton_add]
      rfl
    rw [h5]
    exact add_le_add h1 h2

/-- A concrete pool of one correct and two incorrect choices, for witnesses. -/
def demo_pool_choices : List McChoice :=
  [⟨"choice_0", "true", "", some "ex0"⟩, ⟨"choice_1", "false", "", none⟩,
   ⟨"choice_2", "false", "", none⟩]

/-- Witness for C3: pool size 2 over one correct and two incorrect choices
with the identity generator; the sampled subset keeps the correct choice and
exactly `min(2-1, 2) = 1` incorrect choice. -/
theorem sample_from_answer_pool_spec_witness :
    ∃ sol subset s', sample_from_answer_pool idRng demo_pool_choices () 2
        = .ok (sol, subset, s')
      ∧ subset.countP isCorrectChoice = 1
      ∧ subset.countP (fun c => !isCorrectChoice c) = 1
      ∧ (subset : Multiset McChoice) ≤ (demo_pool_choices : Multiset McChoice) := by
  have h := sample_from_answer_pool_spec idRng idRng_shuffle_perm idRng_randint_bounds
    demo_pool_choices () 2 (by decide) (by decide)
  obtain ⟨sol, subset, s', h1, h2, h3, h4⟩ := h.2
  refine ⟨sol, subset, s', h1, h2, ?_, h4⟩
  rw [h3]
  decide

/-! ## Hint selection protocol (`LoncapaResponse.evaluate_answers` / `get_hints`) -/

/-- The parts of a response's XML and submission that `get_hints` inspects to
choose a branch. `hintgroup_child_count` matters because `if hintgroup:` on an
lxml element tests whether the element has children. -/
structure HintContext where
  hintgroup_found : Bool
  hintgroup_child_count : Nat
  hintfn_attr : Option String
  schema : Option String
  num_student_answers : Nat
deriving DecidableEq, Repr

/-- `hint_function_provided` of `get_hints`: a `<hintgroup>` was found, is
truthy (has children), and carries a non-empty `hintfn` attribute. -/
def hint_function_provided (ctx : HintContext) : Bool :=
  ctx.hintgroup_found && decide (0 < ctx.hintgroup_child_count) &&
    (match ctx.hintfn_attr with
     | some f => !(f = "")
     | none => false)

/-- `LoncapaResponse._using_new_style_hints`: the root problem element's
`schema` attribute equals `edXML/1.0`. -/
def using_new_style_hints (ctx : HintContext) : Bool :=
  ctx.schema = some "edXML/1.0"

/-- The condition under which `get_xml_hints` reports that new-style hints
are in use: at least one submitted answer and the new schema. -/
def xml_hints_found (ctx : HintContext) : Bool :=
  decide (0 < ctx.num_student_answers) && using_new_style_hints ctx

/-- The three mutually exclusive branches of the hint-selection step. -/
inductive HintBranch where
  | hintFn
  | newStyleXml
  | legacy
deriving DecidableEq, Repr

/-- The branch structure of `get_hints`: the hint-function branch if a hint
function is provided, else the new-style XML branch if `get_xml_hints`
reports hints in use, else the legacy condition-check branch. -/
def get_hints_branch (ctx : HintContext) : HintBranch :=
  if hint_function_provided ctx then .hintFn
  else if xml_hints_found ctx then .newStyleXml
  else .legacy

/-- Inside the new-style branch (`get_xml_hints`): compound-condition hints
run first; single-choice hints run only when no compound rule matched. -/
def get_xml_hints_trace (compound_matched : Bool) : List String :=
  if compound_matched then ["compound_condition_hints"]
  else ["compound_condition_hints", "single_choice_hints"]

/-- An evaluation step of `evaluate_answers`, in execution order. -/
inductive EvalEvent where
  | scored
  | hintBranch (b : HintBranch)
deriving DecidableEq, Repr

def isHintEvent : EvalEvent → Bool
  | .scored => false
  | .hintBranch _ => true

/-- `LoncapaResponse.evaluate_answers`: `get_score` runs first, then
`get_hints` takes exactly one branch on the score it produced. -/
def evaluate_answers_trace (ctx : HintContext) : List EvalEvent :=
  [.scored, .hintBranch (get_hints_branch ctx)]

/-- C5: every `evaluate_answers` call scores before any hint selection step,
and the hint selection takes exactly one of its three branches — the
hint-function branch iff a hint function is declared, the new-style XML
branch iff no hint function is declared but the new schema is in use with a
non-empty submission (and there single-choice hints run only if no compound
rule matched), and otherwise the legacy condition-check branch. -/
theorem evaluate_answers_hint_protocol (ctx : HintContext) :
    (evaluate_answers_trace ctx
      = [.scored, .hintBranch (get_hints_branch ctx)])
    ∧ ((evaluate_answers_trace ctx).countP isHintEvent = 1)
    ∧ ((evaluate_answers_trace ctx).head? = some .scored)
    ∧ (get_hints_branch ctx = .hintFn ↔ hint_function_provided ctx = true)
    ∧ (get_hints_branch ctx = .newStyleXml ↔
        (hint_function_provided ctx = false ∧ xml_hints_found ctx = true))
    ∧ (get_hints_branch ctx = .legacy ↔
        (hint_function_provided ctx = false ∧ xml_hints_found ctx = false))
    ∧ (∀ cm, "single_choice_hints" ∈ get_xml_hints_trace cm → cm = false) := by
  refine ⟨rfl, rfl, rfl, ?_, ?_, ?_, ?_⟩
  · unfold get_hints_branch
    by_cases h1 : hint_function_provided ctx
    · simp [h1]
    · by_cases h2 : xml_hints_found ctx <;> simp [h1, h2]
  · unfold get_hints_branch
    by_cases h1 : hint_function_provided ctx
    · simp [h1]
    · by_cases h2 : xml_hints_found ctx <;> simp [h1, h2]
  · unfold get_hints_branch
    by_cases h1 : hint_function_provided ctx
    · simp [h1]
    · by_cases h2 : xml_hints_found ctx <;> simp [h1, h2]
  · intro cm hmem
    by_contra hcm
    rw [Bool.not_eq_false] at hcm
    rw [get_xml_hints_trace, if_pos hcm] at hmem
    exact absurd hmem (by decide)

/-- Witness for C5 at two concrete contexts: with a declared hint function
the hint-function branch is taken; with the new schema, one submitted answer
and no hint function, the new-style branch is taken. -/
theorem evaluate_answers_hint_protocol_witness :
    (get_hints_branch ⟨true, 2, some "give_hints", none, 1⟩ = .hintFn)
    ∧ (get_hints_branch ⟨true, 2, none, some "edXML/1.0", 1⟩ = .newStyleXml) :=
  ⟨(evaluate_answers_hint_protocol ⟨true, 2, some "give_hints", none, 1⟩).2.2.2.1.mpr
      (by decide),
   (evaluate_answers_hint_protocol ⟨true, 2, none, some "edXML/1.0", 1⟩).2.2.2.2.1.mpr
      (by decide)⟩

/-! ## Setup-hook invocation discipline (`LoncapaResponse.__init__`) -/

/-- Response classes whose `setup_response` chains are modelled. -/
inductive ResponseClass where
  | loncapa
  | choice
  | numerical
  | stringR
  | custom
  | symbolic
deriving DecidableEq, Repr

/-- The sequence of `setup_response` method bodies executed when the
dispatched hook of each class runs once: every subclass body first calls
`super().setup_response()`. `SymbolicResponse.setup_response` calls
`super().setup_response()` (the `CustomResponse` body) at its start, sets the
`cfn` attribute, and then calls `super().setup_response()` a second time. -/
def setup_response_trace : ResponseClass → List String
  | .loncapa => ["LoncapaResponse.setup_response"]
  | .choice => ["LoncapaResponse.setup_response", "ChoiceResponse.setup_response"]
  | .numerical => ["LoncapaResponse.setup_response", "NumericalResponse.setup_response"]
  | .stringR => ["LoncapaResponse.setup_response", "StringResponse.setup_response"]
  | .custom => ["LoncapaResponse.setup_response", "CustomResponse.setup_response"]
  | .symbolic =>
      ["LoncapaResponse.setup_response", "CustomResponse.setup_response",
       "SymbolicResponse.setup_response",
       "LoncapaResponse.setup_response", "CustomResponse.setup_response"]

/-- `LoncapaResponse.__init__` invokes the dispatched `setup_response` hook
exactly once (`if hasattr(self, 'setup_response'): self.setup_response()`),
so the bodies executed during one instantiation are exactly one run of the
dispatched hook's chain. -/
def init_setup_trace (c : ResponseClass) : List String := setup_response_trace c

/-- C6 counterexample: instantiating a `SymbolicResponse` executes the
inherited `CustomResponse.setup_response` hook body twice within that one
instance's lifetime, so the setup hook is not invoked at most once. -/
theorem symbolic_setup_runs_custom_twice :
    (init_setup_trace .symbolic).count "CustomResponse.setup_response" = 2 := by
  decide

/-- C6 amended: the framework invokes the dispatched `setup_response` hook
exactly once per instantiation, and for every modelled response class other
than `SymbolicResponse` no setup body executes more than once; but a
`SymbolicResponse` instantiation executes the inherited
`CustomResponse.setup_response` body exactly twice. -/
theorem setup_response_once_amended :
    (∀ c : ResponseClass, c ≠ .symbolic →
      ∀ bodyName, (init_setup_trace c).count bodyName ≤ 1)
    ∧ (init_setup_trace .symbolic).count "CustomResponse.setup_response" = 2 := by
  constructor
  · intro c hc bodyName
    have hnodup : (init_setup_trace c).Nodup := by
      cases c
      case symbolic => exact absurd rfl hc
      all_goals decide
    exact List.nodup_iff_count_le_one.mp hnodup bodyName
  · decide

/-- Witness for C6's amended claim at the concrete class `CustomResponse`:
its own instantiation runs its setup body at most once. -/
theorem setup_response_once_amended_witness :
    (init_setup_trace .custom).count "CustomResponse.setup_response" ≤ 1 :=
  setup_response_once_amended.1 .custom (by decide) "CustomResponse.setup_response"

/-! ## CorrectMap entries, external grader replies, and point values -/

/-- Modelled from the spec: one CorrectMap record (`correctmap.py` is not
among the sources). Per §3 it carries a correctness label, a point value, a
message and an opaque queue token; `set` replaces the whole record of the
given field. -/
structure CmapEntry where
  correctness : Option String
  npoints : Option ℚ
  msg : String
  queuestate : Option String
deriving DecidableEq, Repr

/-- Modelled from the spec: the CorrectMap is a mapping from answer-field
identifier to record, with at most one entry per graded field. -/
def CorrectMap : Type := String → Option CmapEntry

def cmap_set (cm : CorrectMap) (aid : String) (e : CmapEntry) : CorrectMap :=
  fun k => if k = aid then some e else cm k

def cmap_get (cm : CorrectMap) (aid : String) : Option CmapEntry := cm aid

/-- `CorrectMap.is_right_queuekey`: the field is queued and its stored queue
token equals the tested key. -/
def is_right_queuekey (cm : CorrectMap) (aid : String) (test_key : String) : Bool :=
  match cmap_get cm aid with
  | some e =>
    match e.queuestate with
    | some k => k = test_key
    | none => false
  | none => false

/-- A JSON value, as produced by `json.loads` on an external grader reply. -/
inductive Json where
  | null
  | bool (b : Bool)
  | num (q : ℚ)
  | str (s : String)
  | arr (xs : List Json)
  | obj (kvs : List (String × Json))

/-- Python dict key lookup on the decoded JSON object. -/
def jsonLookup : List (String × Json) → String → Option Json
  | [], _ => none
  | (k, v) :: rest, key => if k = key then some v else jsonLookup rest key

/-- Python truthiness of the decoded `correct` value
(`'correct' if correct else 'incorrect'`). -/
def jsonTruthy : Json → Bool
  | .null => false
  | .bool b => b
  | .num q => !(q = 0)
  | .str s => !(s = "")
  | .arr xs => !xs.isEmpty
  | .obj kvs => !kvs.isEmpty

/-- The numeric value of the decoded `score` field; the documented grader
format makes it a number (booleans are Python ints). -/
def jsonScoreValue : Json → ℚ
  | .num q => q
  | .bool b => if b then 1 else 0
  | _ => 0

/-- The decoded `msg` field as the string recorded in the map. -/
def jsonMsgString : Json → String
  | .str s => s
  | _ => ""

/-- Python `str.replace` (leftmost, non-overlapping), as a left-to-right
scan over the characters; the fuel starts at the string length and is never
exhausted because every step consumes at least one character. -/
def replaceCharsAux (pat sub : List Char) : Nat → List Char → List Char
  | _, [] => []
  | 0, s => s
  | Nat.succ fuel, c :: rest =>
    if pat ≠ [] ∧ pat.isPrefixOf (c :: rest) then
      sub ++ replaceCharsAux pat sub fuel ((c :: rest).drop pat.length)
    else c :: replaceCharsAux pat sub fuel rest

def pyReplace (s pat sub : String) : String :=
  ⟨replaceCharsAux pat.data sub.data s.data.length s.data⟩

/-- The neutral failed tuple of `CodeResponse._parse_score_msg`:
`(False, False, 0, '')`. -/
def parse_fail : Bool × Json × Json × Json := (false, .bool false, .num 0, .str "")

/-- `CodeResponse._parse_score_msg`. The reply is `none` when `json.loads`
raised; a decoded non-dict reply and a dict missing any of `correct`,
`score`, `msg` also fail. `msg_ok` stands for the external XML/HTML
well-formedness check (`etree.fromstring` with `html5lib` fallback) run on
the `msg` value. The function is total: every malformed reply yields the
neutral failed tuple rather than an exception. -/
def parse_score_msg (score_msg : Option Json) (msg_ok : Json → Bool) :
    Bool × Json × Json × Json :=
  match score_msg with
  | none => parse_fail
  | some (.obj kvs) =>
    match jsonLookup kvs "correct", jsonLookup kvs "score", jsonLookup kvs "msg" with
    | some c, some sc, some m => if msg_ok m then (true, c, sc, m) else parse_fail
    | _, _, _ => parse_fail
  | some _ => parse_fail

/-- The student-facing message attached on an invalid grader reply. -/
def invalid_grader_msg : String := "Invalid grader reply. Please contact the course staff."

/-- `CodeResponse.update_score`: parse the reply; on an invalid reply set
only the error message (the spec-modelled `set` nulls correctness, points
and queue state); on a valid reply whose queue key matches, clamp negative
points to zero and record correctness, points and the message (with
`&nbsp;` replaced); on a queue-key mismatch leave the map unchanged. -/
def update_score (answer_id : String) (score_msg : Option Json)
    (msg_ok : Json → Bool) (oldcmap : CorrectMap) (queuekey : String) : CorrectMap :=
  let parsed := parse_score_msg score_msg msg_ok
  if !parsed.1 then
    cmap_set oldcmap answer_id ⟨none, none, invalid_grader_msg, none⟩
  else
    let correctness := if jsonTruthy parsed.2.1 then "correct" else "incorrect"
    if is_right_queuekey oldcmap answer_id queuekey then
      let points0 := jsonScoreValue parsed.2.2.1
      let points := if points0 < 0 then 0 else points0
      cmap_set oldcmap answer_id
        ⟨some correctness, some points,
          pyReplace (jsonMsgString parsed.2.2.2) "&nbsp;" "&#160;", none⟩
    else oldcmap

/-- The point-assignment loop of `CustomResponse.get_score`:
`npoints = self.maxpoints[idset[k]] if correct[k] == 'correct' else 0`. -/
def custom_response_points (maxpoints : String → ℚ) (idset : List String)
    (correct : List String) : List (String × ℚ) :=
  (idset.zip correct).map
    (fun p => (p.1, if p.2 = "correct" then maxpoints p.1 else 0))

/-- The point assignment of `JavascriptResponse.get_score`:
`points = self.get_max_score() if all_correct else 0` (with a single answer
field, `get_max_score()` is that field's declared maximum). -/
def javascript_response_points (max_score : ℚ) (all_correct : Bool) : ℚ :=
  if all_correct then max_score else 0

/-- An old CorrectMap with one queued entry, for counterexamples and
witnesses. -/
def demo_oldcmap : CorrectMap :=
  fun k => if k = "1_2_1" then some ⟨some "incomplete", none, "", some "key1"⟩ else none

theorem pyReplace_ok_eval : pyReplace "ok" "&nbsp;" "&#160;" = "ok" := by decide

/-- C7 counterexample: an external grader reply `{"correct": true, "score": 5,
"msg": "ok"}` with a matching queue key makes `CodeResponse.update_score`
record `npoints = 5` for a field whose declared maximum point value is the
default `1`; the recorded points exceed the field's maximum. -/
theorem update_score_exceeds_max :
    (cmap_get (update_score "1_2_1"
        (some (.obj [("correct", .bool true), ("score", .num 5), ("msg", .str "ok")]))
        (fun _ => true) demo_oldcmap "key1") "1_2_1"
      = some ⟨some "correct", some 5, "ok", none⟩)
    ∧ ¬((5 : ℚ) ≤ 1) := by
  constructor
  · have h5 : ¬((5 : ℚ) < 0) := by norm_num
    simp [update_score, parse_score_msg, jsonLookup, is_right_queuekey, cmap_get,
      demo_oldcmap, cmap_set, jsonTruthy, jsonScoreValue, jsonMsgString,
      pyReplace_ok_eval, h5]
  · norm_num

/-- C7 amended: points recorded by `CustomResponse.get_score` and
`JavascriptResponse.get_score` are non-negative and at most the field's
declared maximum; `CodeResponse.update_score` clamps the external grader's
points below at zero — so they are non-negative — but applies no upper
clamp, recording exactly the grader's value even above the field maximum. -/
theorem points_bounds_amended :
    (∀ (maxpoints : String → ℚ) (idset correct_list : List String),
      (∀ id, 0 ≤ maxpoints id) →
      ∀ p ∈ custom_response_points maxpoints idset correct_list,
        0 ≤ p.2 ∧ p.2 ≤ maxpoints p.1)
    ∧ (∀ (max_score : ℚ) (b : Bool), 0 ≤ max_score →
        0 ≤ javascript_response_points max_score b
        ∧ javascript_response_points max_score b ≤ max_score)
    ∧ (∀ answer_id score_msg msg_ok oldcmap queuekey,
        (parse_score_msg score_msg msg_ok).1 = true →
        is_right_queuekey oldcmap answer_id queuekey = true →
        ∃ e, cmap_get (update_score answer_id score_msg msg_ok oldcmap queuekey) answer_id
            = some e
          ∧ e.npoints
              = some (if jsonScoreValue (parse_score_msg score_msg msg_ok).2.2.1 < 0
                  then 0 else jsonScoreValue (parse_score_msg score_msg msg_ok).2.2.1)
          ∧ ∀ q, e.npoints = some q → 0 ≤ q) := by
  refine ⟨?_, ?_, ?_⟩
  · intro maxpoints idset correct_list hmax p hp
    simp only [custom_response_points, List.mem_map] at hp
    obtain ⟨q, hq, rfl⟩ := hp
    constructor
    · by_cases h : q.2 = "correct" <;> simp [h, hmax q.1]
    · by_cases h : q.2 = "correct" <;> simp [h, hmax q.1]
  · intro max_score b h
    unfold javascript_response_points
    cases b <;> simp [h]
  · intro answer_id score_msg msg_ok oldcmap queuekey hvalid hkey
    refine ⟨⟨some (if jsonTruthy (parse_score_msg score_msg msg_ok).2.1
        then "correct" else "incorrect"),
      some (if jsonScoreValue (parse_score_msg score_msg msg_ok).2.2.1 < 0 then 0
        else jsonScoreValue (parse_score_msg score_msg msg_ok).2.2.1),
      pyReplace (jsonMsgString (parse_score_msg score_msg msg_ok).2.2.2) "&nbsp;" "&#160;",
      none⟩, ?_, rfl, ?_⟩
    · simp [update_score, hvalid, hkey, cmap_get, cmap_set]
    · intro q hq
      simp only [Option.some.injEq] at hq
      subst hq
      by_cases h : jsonScoreValue (parse_score_msg score_msg msg_ok).2.2.1 < 0
      · simp [h]
      · simp only [h, if_false]
        exact le_of_not_lt h

/-- Witness for C7's amended claim: the concrete over-limit grader reply is
recorded with exactly the grader's five points, which are non-negative. -/
theorem points_bounds_amended_witness :
    ((cmap_get (update_score "1_2_1"
        (some (.obj [("correct", .bool true), ("score", .num 5), ("msg", .str "ok")]))
        (fun _ => true) demo_oldcmap "key1") "1_2_1").bind CmapEntry.npoints = some 5)
    ∧ ((0 : ℚ) ≤ 5) := by
  obtain ⟨e, h1, h2, h3⟩ := points_bounds_amended.2.2 "1_2_1"
    (some (.obj [("correct", .bool true), ("score", .num 5), ("msg", .str "ok")]))
    (fun _ => true) demo_oldcmap "key1"
    (by simp [parse_score_msg, jsonLookup])
    (by simp [is_right_queuekey, cmap_get, demo_oldcmap])
  have h5 : ¬((5 : ℚ) < 0) := by norm_num
  have he : e.npoints = some 5 := by
    rw [h2]
    simp [parse_score_msg, jsonLookup, jsonScoreValue, h5]
  exact ⟨by rw [h1, Option.some_bind, he], h3 5 he⟩

/-- C9: `_parse_score_msg` returns the neutral failed tuple
`(False, False, 0, '')`, raising nothing (it is a total function), whenever
the reply is not valid JSON, not a dictionary, or missing one of the keys
`correct`, `score`, `msg`; and on any such invalid reply `update_score`
records no correctness and no points, attaching only the
invalid-grader-reply message. -/
theorem parse_score_msg_invalid_spec :
    (∀ msg_ok, parse_score_msg none msg_ok = parse_fail)
    ∧ (∀ j msg_ok, (∀ kvs, j ≠ .obj kvs) → parse_score_msg (some j) msg_ok = parse_fail)
    ∧ (∀ kvs msg_ok,
        (jsonLookup kvs "correct" = none ∨ jsonLookup kvs "score" = none
          ∨ jsonLookup kvs "msg" = none) →
        parse_score_msg (some (.obj kvs)) msg_ok = parse_fail)
    ∧ (∀ answer_id score_msg msg_ok oldcmap queuekey,
        (parse_score_msg score_msg msg_ok).1 = false →
        update_score answer_id score_msg msg_ok oldcmap queuekey
          = cmap_set oldcmap answer_id ⟨none, none, invalid_grader_msg, none⟩) := by
  refine ⟨fun _ => rfl, ?_, ?_, ?_⟩
  · intro j msg_ok h
    cases j with
    | obj kvs => exact absurd rfl (h kvs)
    | null => rfl
    | bool b => rfl
    | num q => rfl
    | str s => rfl
    | arr xs => rfl
  · intro kvs msg_ok h
    rcases h with h | h | h
    · simp [parse_score_msg, h]
    · cases hc : jsonLookup kvs "correct" <;> simp [parse_score_msg, h, hc]
    · cases hc : jsonLookup kvs "correct" <;> cases hs : jsonLookup kvs "score" <;>
        simp [parse_score_msg, h, hc, hs]
  · intro answer_id score_msg msg_ok oldcmap queuekey h
    simp [update_score, h]

/-- Witness for C9 at concrete malformed replies: a non-dict reply, a dict
missing `score` and `msg`, and an unparseable reply whose `update_score`
outcome carries only the invalid-reply message. -/
theorem parse_score_msg_invalid_spec_witness :
    (parse_score_msg (some (.str "not a dict")) (fun _ => true) = parse_fail)
    ∧ (parse_score_msg (some (.obj [("correct", .bool true)])) (fun _ => true) = parse_fail)
    ∧ (cmap_get (update_score "1_2_1" none (fun _ => true) demo_oldcmap "key1") "1_2_1"
        = some ⟨none, none, invalid_grader_msg, none⟩) := by
  refine ⟨?_, ?_, ?_⟩
  · exact parse_score_msg_invalid_spec.2.1 _ _ (fun kvs => by simp)
  · exact parse_score_msg_invalid_spec.2.2.1 _ _
      (Or.inr (Or.inl (by simp [jsonLookup])))
  · rw [parse_score_msg_invalid_spec.2.2.2 "1_2_1" none (fun _ => true) demo_oldcmap
      "key1" rfl]
    simp [cmap_set, cmap_get]

/-! ## StringResponse -/

/-- The matching-mode flags of `StringResponse.setup_response`: `backward`
is the legacy `_or_` path, `regexp` and `case_insensitive` come from the
`type` attribute. -/
structure StringResponseCfg where
  backward : Bool
  regexp : Bool
  case_insensitive : Bool
deriving DecidableEq, Repr

/-- Python `str.strip()` on whitespace. -/
def pyStrip (s : String) : String :=
  ⟨(((s.data.dropWhile Char.isWhitespace).reverse).dropWhile Char.isWhitespace).reverse⟩

/-- Python `str.lower()` for the case-insensitive plain comparison. -/
def strLower (s : String) : String := ⟨s.data.map Char.toLower⟩

/-- `StringResponse.setup_response` (non-legacy path): the correct-answer
list is the primary `answer` attribute followed by every
`<additional_answer>` text, each contextualized and stripped. -/
def string_setup_correct_answer (primary : String) (additional : List String) :
    List String :=
  (primary :: additional).map pyStrip

/-- The message of the `ResponseError` raised when the combined regex fails
to compile or match. -/
def regex_error_msg : String := "[courseware.capa.responsetypes.stringresponse] error"

/-- `StringResponse.check_string_backward` (legacy `_or_` list match). -/
def check_string_backward (cfg : StringResponseCfg) (expected : List String)
    (given : String) : Bool :=
  if cfg.case_insensitive then (expected.map strLower).contains (strLower given)
  else expected.contains given

/-- `StringResponse.check_string`. The external regex engine is the
`matcher` oracle taking the case-insensitivity flag, the pattern and the
text; `none` models a raised compile or search failure, which the code
converts to a fatal `ResponseError`. In regexp mode the pattern is
`'^' + '|'.join(expected) + '$'`. -/
def check_string (cfg : StringResponseCfg)
    (matcher : Bool → String → String → Option Bool)
    (expected : List String) (given : String) : Except CapaError Bool :=
  if cfg.backward then
    .ok (check_string_backward cfg expected given)
  else if cfg.regexp then
    match matcher cfg.case_insensitive
        ("^" ++ String.intercalate "|" expected ++ "$") given with
    | some b => .ok b
    | none => .error (.responseError regex_error_msg)
  else
    if cfg.case_insensitive then .ok ((expected.map strLower).contains (strLower given))
    else .ok (expected.contains given)

/-- `StringResponse.get_score`: strip the submission, run `check_string`,
grade `correct`/`incorrect`. -/
def string_get_score (cfg : StringResponseCfg)
    (matcher : Bool → String → String → Option Bool)
    (correct_answer : List String) (submission : String) : Except CapaError String :=
  (check_string cfg matcher correct_answer (pyStrip submission)).map
    (fun correct => if correct then "correct" else "incorrect")

/-- C8: in regex mode (non-legacy path) the primary answer and all
additional answers are combined into the single alternation pattern
`'^' + '|'.join(answers) + '$'`; grading returns `correct` iff the external
engine matches that pattern against the stripped submission, `incorrect`
iff the engine reports no match, and when the engine fails (compile or
search error) the result is a fatal `ResponseError` — never a
`StudentInputError`. -/
theorem string_regexp_mode_spec
    (matcher : Bool → String → String → Option Bool)
    (ci : Bool) (primary : String) (additional : List String) (submission : String) :
    (matcher ci ("^" ++ String.intercalate "|"
          (string_setup_correct_answer primary additional) ++ "$")
        (pyStrip submission) = some true →
      string_get_score ⟨false, true, ci⟩ matcher
        (string_setup_correct_answer primary additional) submission = .ok "correct")
    ∧ (matcher ci ("^" ++ String.intercalate "|"
          (string_setup_correct_answer primary additional) ++ "$")
        (pyStrip submission) = some false →
      string_get_score ⟨false, true, ci⟩ matcher
        (string_setup_correct_answer primary additional) submission = .ok "incorrect")
    ∧ (matcher ci ("^" ++ String.intercalate "|"
          (string_setup_correct_answer primary additional) ++ "$")
        (pyStrip submission) = none →
      string_get_score ⟨false, true, ci⟩ matcher
        (string_setup_correct_answer primary additional) submission
        = .error (.responseError regex_error_msg))
    ∧ (∀ e, string_get_score ⟨false, true, ci⟩ matcher
        (string_setup_correct_answer primary additional) submission = .error e →
        e = .responseError regex_error_msg) := by
  refine ⟨fun h => ?_, fun h => ?_, fun h => ?_, fun e he => ?_⟩
  · simp [string_get_score, check_string, h, Except.map]
  · simp [string_get_score, check_string, h, Except.map]
  · simp [string_get_score, check_string, h, Except.map]
  · rw [string_get_score, check_string] at he
    simp only [if_false, if_true, Bool.false_eq_true] at he
    cases hm : matcher ci ("^" ++ String.intercalate "|"
        (string_setup_correct_answer primary additional) ++ "$") (pyStrip submission) with
    | some b => rw [hm] at he; simp [Except.map] at he
    | none =>
      rw [hm] at he
      simp only [Except.map] at he
      exact (Except.error.injEq _ _).mp he.symm ▸ rfl

/-- Witness for C8: with an engine reporting a match the stripped
submission grades `correct`; with an engine that fails, the fatal
`ResponseError` is raised. -/
theorem string_regexp_mode_spec_witness :
    (string_get_score ⟨false, true, true⟩ (fun _ _ _ => some true)
        (string_setup_correct_answer "\\d5" []) " 05 " = .ok "correct")
    ∧ (string_get_score ⟨false, true, true⟩ (fun _ _ _ => none)
        (string_setup_correct_answer "\\d5" []) "A5"
        = .error (.responseError regex_error_msg)) :=
  ⟨(string_regexp_mode_spec (fun _ _ _ => some true) true "\\d5" [] " 05 ").1 rfl,
   (string_regexp_mode_spec (fun _ _ _ => none) true "\\d5" [] "A5").2.2.1 rfl⟩

end Capa
